import Mathlib

/-!
Verification of the server-list filter composer and the icon upload
validators of a Django/DRF chat application.

The embedding translates `server/views.py` (`ServerListViewSet.list`) and
`server/validators.py` into pure Lean functions.  The database is a list of
`Server` records; a request is the bag of query parameters together with the
requester's authentication state; errors raised by the view become the
`Err` sum type.  Python-specific behaviour that the view relies on —
truthiness of optional strings, `int()` parsing, `os.path.splitext` — is
modelled explicitly.
-/

namespace ChatApp

/-- A `Server` row: integer primary key, name, the name of its related
`Category`, and the user ids of its many-to-many `member` relation. -/
structure Server where
  id : Int
  name : String
  categoryName : String
  members : List Int
deriving Repr, DecidableEq

/-- An element of the working queryset: a server, possibly carrying the
`num_members` value attached by `annotate(num_members=Count("member"))`. -/
structure AServer where
  server : Server
  num_members : Option Nat
deriving Repr, DecidableEq

/-- Failures the `list` view can end in.  `authenticationFailed` is DRF's
`AuthenticationFailed`, `validationError` is DRF's `ValidationError` with its
detail string, and `internalError` stands for an unhandled Python exception
escaping the view (e.g. `int(qty)` raising `ValueError`). -/
inductive Err where
  | authenticationFailed
  | validationError (detail : String)
  | internalError
deriving Repr, DecidableEq

/-- The request: the five optional query parameters (absent parameter =
`none`), and the requesting user's state. -/
structure Request where
  category : Option String
  qty : Option String
  by_user : Option String
  by_serverid : Option String
  with_num_members : Option String
  isAuthenticated : Bool
  userId : Int
deriving Repr, DecidableEq

/-- `request.query_params.get(p) == "true"`: the flag is truthy exactly when
the parameter is present with the literal value `"true"`. -/
def pyFlag (v : Option String) : Bool := v == some "true"

/-- Python truthiness of an optional string (`if category:`): `None` and the
empty string are falsy, every other string is truthy. -/
def pyTruthy (v : Option String) : Bool :=
  match v with
  | none => false
  | some s => !s.isEmpty

/-- ASCII decimal digit test. -/
def pyDigit (c : Char) : Bool := '0' ≤ c && c ≤ '9'

/-- Value of a list of decimal digits. -/
def digitsVal (cs : List Char) : Nat :=
  cs.foldl (fun a c => 10 * a + (c.toNat - '0'.toNat)) 0

/-- ASCII whitespace, as stripped by Python `int()`. -/
def pySpace (c : Char) : Bool :=
  c == ' ' || c == '\t' || c == '\n' || c == '\r'

/-- Remove leading and trailing whitespace. -/
def stripSpaces (cs : List Char) : List Char :=
  ((cs.dropWhile pySpace).reverse.dropWhile pySpace).reverse

/-- Python `int(s)` on a decimal string: surrounding whitespace stripped,
optional sign, then a nonempty run of digits; `none` when `ValueError`
would be raised. -/
def pyInt (s : String) : Option Int :=
  let cs := stripSpaces s.toList
  let sign : Int := match cs with
    | '-' :: _ => -1
    | _ => 1
  let ds : List Char := match cs with
    | '-' :: rest => rest
    | '+' :: rest => rest
    | l => l
  if ds.isEmpty then none
  else if ds.all pyDigit then some (sign * (digitsVal ds : Int))
  else none

/-- The base queryset `Server.objects.all()`: every row, unannotated. -/
def initialQS (db : List Server) : List AServer :=
  db.map (fun s => ⟨s, none⟩)

/-- Step 1, `if category: queryset.filter(category__name=category)`:
restrict to servers whose category name equals the parameter exactly. -/
def stepCategory (cat : Option String) (qs : List AServer) : List AServer :=
  match cat with
  | none => qs
  | some c => if c.isEmpty then qs
      else qs.filter (fun a => a.server.categoryName == c)

/-- The filter applied by the `by_user` step when it runs:
`queryset.filter(member=user_id)`. -/
def byUserFilter (r : Request) (qs : List AServer) : List AServer :=
  if pyFlag r.by_user then
    qs.filter (fun a => a.server.members.contains r.userId)
  else qs

/-- Step 2, the `by_user` block: when the flag is truthy, an unauthenticated
requester gets `AuthenticationFailed`; otherwise the member filter runs. -/
def stepByUser (r : Request) (qs : List AServer) : Except Err (List AServer) :=
  if pyFlag r.by_user then
    if r.isAuthenticated then .ok (byUserFilter r qs)
    else .error .authenticationFailed
  else .ok qs

/-- The value `Count("member")` produces for one server.  Django reuses the
join created by an earlier `filter` on the same relation: when the queryset
was first filtered with `filter(member=user_id)` (the `by_user` step), the
`member` join is already constrained to the requester, so the count is the
number of the requester's rows in the relation; otherwise it is the full
member count. -/
def annotatedCount (r : Request) (s : Server) : Nat :=
  if pyFlag r.by_user then (s.members.filter (fun m => m == r.userId)).length
  else s.members.length

/-- Step 3, `annotate(num_members=Count("member"))`: when the flag is truthy,
attach to each record the count the (possibly already filtered) `member`
join yields for it. -/
def stepNumMembers (r : Request) (qs : List AServer) : List AServer :=
  if pyFlag r.with_num_members then
    qs.map (fun a => ⟨a.server, some (annotatedCount r a.server)⟩)
  else qs

/-- Step 4, the `by_serverid` block.  The parameter is skipped when falsy
(absent or empty).  Otherwise: unauthenticated requesters get
`AuthenticationFailed`; a value `int()` cannot parse raises `ValueError`
inside the `try`, answered with `ValidationError("Server value error")`;
otherwise the queryset is narrowed to that id and, when the narrowed set is
empty, `ValidationError("Server with id {id} not found.")` is raised. -/
def stepServerid (r : Request) (qs : List AServer) : Except Err (List AServer) :=
  match r.by_serverid with
  | none => .ok qs
  | some v =>
    if v.isEmpty then .ok qs
    else if !r.isAuthenticated then .error .authenticationFailed
    else
      match pyInt v with
      | none => .error (.validationError "Server value error")
      | some n =>
        if (qs.filter (fun a => a.server.id == n)).isEmpty then
          .error (.validationError ("Server with id " ++ v ++ " not found."))
        else .ok (qs.filter (fun a => a.server.id == n))

/-- Step 5, `if qty: queryset[: int(qty)]`.  A falsy `qty` is skipped; a
value `int()` cannot parse, or a negative value (querysets reject negative
slicing), escapes the view as an unhandled exception. -/
def stepQty (qty : Option String) (qs : List AServer) : Except Err (List AServer) :=
  match qty with
  | none => .ok qs
  | some q =>
    if q.isEmpty then .ok qs
    else
      match pyInt q with
      | none => .error .internalError
      | some n => if n < 0 then .error .internalError else .ok (qs.take n.toNat)

/-- A serialized server record as it appears in the JSON response;
`num_members = none` means the key is absent. -/
structure SerializedServer where
  id : Int
  name : String
  category : String
  num_members : Option Nat
deriving Repr, DecidableEq

/-- Modelled from the spec: `ServerSerializer` (`server/serializer.py` is not
in the sources) serializes each record's id, name and category, and includes
the `num_members` field if and only if the `num_members` flag in the
serialization context is true, its value being the member count of the
record. -/
def serializeServer (flag : Bool) (a : AServer) : SerializedServer :=
  { id := a.server.id
    name := a.server.name
    category := a.server.categoryName
    num_members :=
      if flag then some (a.num_members.getD a.server.members.length) else none }

/-- The working collection after steps 1–3 (category, by_user,
with_num_members), assuming the by_user gate passed. -/
def collectionAfterAnnotate (db : List Server) (r : Request) : List AServer :=
  stepNumMembers r
    (byUserFilter r (stepCategory r.category (initialQS db)))

/-- The pipeline through step 3. -/
def queryBeforeServerid (db : List Server) (r : Request) :
    Except Err (List AServer) :=
  match stepByUser r (stepCategory r.category (initialQS db)) with
  | .error e => .error e
  | .ok qs2 => .ok (stepNumMembers r qs2)

/-- The pipeline through step 4. -/
def queryBeforeQty (db : List Server) (r : Request) :
    Except Err (List AServer) :=
  match queryBeforeServerid db r with
  | .error e => .error e
  | .ok qs3 => stepServerid r qs3

/-- `ServerListViewSet.list`: run the five steps in source order on the base
queryset, then serialize with the `with_num_members` flag in the context. -/
def serverList (db : List Server) (r : Request) :
    Except Err (List SerializedServer) :=
  match queryBeforeQty db r with
  | .error e => .error e
  | .ok qs4 =>
    match stepQty r.qty qs4 with
    | .error e => .error e
    | .ok qs5 => .ok (qs5.map (serializeServer (pyFlag r.with_num_members)))

/-! ### Icon validators (`server/validators.py`) -/

/-- The pixel dimensions `PIL.Image` reports for an uploaded image. -/
structure IconImage where
  width : Nat
  height : Nat
deriving Repr, DecidableEq

/-- `validate_icon_image_size`: no-op on a missing value; otherwise raise
`ValidationError` when the decoded width or height exceeds 70. -/
def validate_icon_image_size (image : Option IconImage) : Except String Unit :=
  match image with
  | none => .ok ()
  | some img =>
    if img.width > 70 ∨ img.height > 70 then
      .error ("THe maximum allowed dimentions for the image are 70*70 - size of image you uploaded:("
        ++ toString img.width ++ ", " ++ toString img.height ++ ")")
    else .ok ()

/-- Index of the last occurrence of `c` in `cs`, if any. -/
def lastIdx (c : Char) : List Char → Option Nat
  | [] => none
  | a :: as =>
    match lastIdx c as with
    | some i => some (i + 1)
    | none => if a = c then some 0 else none

/-- `dotIdx > sepIdx` with Python's `-1`-for-missing convention
(`str.rfind`). -/
def idxGt (dotIdx sepIdx : Option Nat) : Bool :=
  match dotIdx, sepIdx with
  | none, _ => false
  | some _, none => true
  | some d, some s => decide (s < d)

/-- The extension `os.path.splitext(p)[1]` returns: the suffix of `p` from
the last `'.'`, provided that dot lies after the last `'/'` and at least one
character strictly between them is not a dot (so dot-led basenames such as
`".bashrc"` have no extension). -/
def splitextExt (p : String) : String :=
  let cs := p.toList
  let sepIdx := lastIdx '/' cs
  let dotIdx := lastIdx '.' cs
  match dotIdx with
  | none => ""
  | some d =>
    if idxGt dotIdx sepIdx then
      let start := match sepIdx with
        | none => 0
        | some s => s + 1
      let run := (cs.drop start).take (d - start)
      if run.all (· = '.') then "" else String.mk (cs.drop d)
    else ""

/-- The accepted extension list `valid_exts`. -/
def valid_exts : List String := [".jpg", ".jpeg", ".png", ".gif", ".webp"]

/-- Python `str.lower()`, character by character (the extensions involved
are ASCII). -/
def strLower (s : String) : String := String.mk (s.toList.map Char.toLower)

/-- `validate_image_file_exstention`: reject unless the lower-cased
`splitext` extension of the file name is in `valid_exts`. -/
def validate_image_file_exstention (name : String) : Except String Unit :=
  let ext := splitextExt name
  if !(valid_exts.contains (strLower ext)) then
    .error "Unsupported file exstention"
  else .ok ()

/-- The extraction rule as the spec words it: the portion of the name from
its last `'.'` (empty when the name has no dot).  Stated only to be compared
with `splitextExt`, which is what the code uses. -/
def specClaimedExt (p : String) : String :=
  let cs := p.toList
  match lastIdx '.' cs with
  | none => ""
  | some d => String.mk (cs.drop d)

/-! ### Helper lemmas -/

theorem toList_eq_data (s : String) : s.toList = s.data := rfl

theorem lastIdx_eq_none {c : Char} {cs : List Char} (h : c ∉ cs) :
    lastIdx c cs = none := by
  induction cs with
  | nil => rfl
  | cons a as ih =>
    simp only [List.mem_cons, not_or] at h
    simp only [lastIdx, ih h.2]
    rw [if_neg]
    intro hac
    exact h.1 hac.symm

theorem lastIdx_append_none {c : Char} {ys : List Char}
    (h : lastIdx c ys = none) (xs : List Char) :
    lastIdx c (xs ++ ys) = lastIdx c xs := by
  induction xs with
  | nil => simpa using h
  | cons a as ih =>
    simp only [List.cons_append, lastIdx, List.append_eq, ih]

theorem lastIdx_append_some {c : Char} {ys : List Char} {i : Nat}
    (h : lastIdx c ys = some i) (xs : List Char) :
    lastIdx c (xs ++ ys) = some (xs.length + i) := by
  induction xs with
  | nil => simpa using h
  | cons a as ih =>
    simp only [List.cons_append, lastIdx, List.append_eq, ih,
      List.length_cons, Option.some.injEq]
    omega

theorem toList_dot_concat (stem suf : String) :
    (stem ++ "." ++ suf).toList = stem.toList ++ ('.' :: suf.toList) := by
  show (stem ++ "." ++ suf).data = stem.data ++ ('.' :: suf.data)
  rw [String.data_append, String.data_append, List.append_assoc]
  rfl

/-- For an ordinary name of the shape `stem ++ "." ++ suf` — the suffix
dot-free, no path separators, and at least one non-dot character in the
stem — `os.path.splitext` extracts exactly the portion from the last dot,
agreeing with the extraction rule the spec words. -/
theorem splitextExt_concat {stem suf : String}
    (h1 : '/' ∉ stem.toList) (h2 : '/' ∉ suf.toList) (h3 : '.' ∉ suf.toList)
    (h4 : ∃ c ∈ stem.toList, c ≠ '.') :
    splitextExt (stem ++ "." ++ suf) = "." ++ suf ∧
    specClaimedExt (stem ++ "." ++ suf) = "." ++ suf := by
  have hcs : (stem ++ "." ++ suf).toList = stem.data ++ ('.' :: suf.data) :=
    toList_dot_concat stem suf
  have hsufnone : lastIdx '.' suf.data = none := lastIdx_eq_none h3
  have hdotmid : lastIdx '.' ('.' :: suf.data) = some 0 := by
    simp [lastIdx, hsufnone]
  have hdot : lastIdx '.' ((stem ++ "." ++ suf).toList) =
      some stem.data.length := by
    rw [hcs]
    simpa using lastIdx_append_some hdotmid stem.data
  have hsep : lastIdx '/' ((stem ++ "." ++ suf).toList) = none := by
    rw [hcs]
    refine lastIdx_eq_none ?_
    simp only [List.mem_append, List.mem_cons, not_or]
    exact ⟨h1, by decide, h2⟩
  have hdrop : ((stem ++ "." ++ suf).toList).drop stem.data.length =
      '.' :: suf.data := by
    rw [hcs]; exact List.drop_left _ _
  have hmk : String.mk ('.' :: suf.data) = "." ++ suf := by
    apply String.ext
    rw [String.data_append]
    rfl
  constructor
  · have htake : (((stem ++ "." ++ suf).toList).drop 0).take
        (stem.data.length - 0) = stem.data := by
      rw [List.drop_zero, Nat.sub_zero, hcs]
      exact List.take_left _ _
    have hall : (stem.data).all (fun c => c = '.') = false := by
      rcases h4 with ⟨c, hc, hne⟩
      rw [Bool.eq_false_iff]
      intro hcontra
      exact hne (by simpa using List.all_eq_true.mp hcontra c hc)
    simp only [splitextExt, hdot, hsep, idxGt, htake, hall]
    simp [hdrop, hmk]
  · simp only [specClaimedExt, hdot, hdrop, hmk]

/-! ### Pipeline lemmas -/

theorem stepByUser_of_flag_false {r : Request} (h : pyFlag r.by_user = false)
    (qs : List AServer) : stepByUser r qs = .ok qs := by
  simp [stepByUser, h]

theorem stepByUser_of_auth {r : Request} (h : r.isAuthenticated = true)
    (qs : List AServer) : stepByUser r qs = .ok (byUserFilter r qs) := by
  unfold stepByUser
  by_cases hf : pyFlag r.by_user = true
  · simp [hf, h]
  · simp [hf, byUserFilter, Bool.eq_false_iff.mpr hf]

theorem queryBeforeServerid_of_auth {db : List Server} {r : Request}
    (h : r.isAuthenticated = true) :
    queryBeforeServerid db r = .ok (collectionAfterAnnotate db r) := by
  simp [queryBeforeServerid, stepByUser_of_auth h, collectionAfterAnnotate]

theorem mem_stepCategory {cat : Option String} {qs : List AServer} {a : AServer}
    (h : a ∈ stepCategory cat qs) : a ∈ qs := by
  cases cat with
  | none => exact h
  | some c =>
    simp only [stepCategory] at h
    by_cases hc : c.isEmpty = true
    · rwa [if_pos hc] at h
    · rw [if_neg hc] at h
      exact (List.mem_filter.mp h).1

theorem byUserFilter_subset (r : Request) (qs : List AServer) :
    byUserFilter r qs ⊆ qs := by
  unfold byUserFilter
  by_cases hf : pyFlag r.by_user = true
  · rw [if_pos hf]; exact fun a ha => (List.mem_filter.mp ha).1
  · rw [if_neg hf]; exact fun a ha => ha

theorem stepByUser_ok_subset {r : Request} {qs qs' : List AServer}
    (h : stepByUser r qs = .ok qs') : qs' ⊆ qs := by
  unfold stepByUser at h
  split at h
  · split at h
    · injection h with h; subst h; exact byUserFilter_subset r qs
    · exact Except.noConfusion h
  · injection h with h; subst h; exact fun a ha => ha

theorem mem_stepNumMembers {r : Request} {qs : List AServer} {a : AServer}
    (h : a ∈ stepNumMembers r qs) :
    ∃ b ∈ qs, a.server = b.server ∧
      a.num_members = if pyFlag r.with_num_members then
        some (annotatedCount r b.server) else b.num_members := by
  unfold stepNumMembers at h
  by_cases hf : pyFlag r.with_num_members = true
  · rw [if_pos hf] at h
    rcases List.mem_map.mp h with ⟨b, hb, hba⟩
    refine ⟨b, hb, by rw [← hba], ?_⟩
    rw [← hba]
    simp [hf]
  · rw [if_neg hf] at h
    refine ⟨a, h, rfl, ?_⟩
    simp [hf]

theorem stepServerid_ok_subset {r : Request} {qs qs' : List AServer}
    (h : stepServerid r qs = .ok qs') : qs' ⊆ qs := by
  unfold stepServerid at h
  split at h
  · injection h with h; subst h; exact fun a ha => ha
  · split at h
    · injection h with h; subst h; exact fun a ha => ha
    · split at h
      · exact Except.noConfusion h
      · split at h
        · exact Except.noConfusion h
        · split at h
          · exact Except.noConfusion h
          · injection h with h; subst h
            exact fun a ha => (List.mem_filter.mp ha).1

theorem stepQty_ok_subset {qty : Option String} {qs qs' : List AServer}
    (h : stepQty qty qs = .ok qs') : qs' ⊆ qs := by
  unfold stepQty at h
  split at h
  · injection h with h; subst h; exact fun a ha => ha
  · split at h
    · injection h with h; subst h; exact fun a ha => ha
    · split at h
      · exact Except.noConfusion h
      · split at h
        · exact Except.noConfusion h
        · injection h with h; subst h; exact List.take_subset _ _

theorem isEmpty_false_of_ne {v : String} (h : v ≠ "") : v.isEmpty = false := by
  cases he : v.isEmpty
  · rfl
  · exact absurd ((String.isEmpty_iff v).mp he) h

theorem isEmpty_false_of_pyInt {v : String} {n : Int} (h : pyInt v = some n) :
    v.isEmpty = false := by
  refine isEmpty_false_of_ne ?_
  intro hv
  rw [hv] at h
  exact Option.noConfusion h

/-! ### Claim theorems: the list endpoint -/

/-- C1: with an authenticated requester and a parseable `by_serverid`, the
existence check runs against the collection already filtered by the
category, `by_user` and `with_num_members` steps — if the identifier names
no record of that filtered collection (even one present in the unfiltered
base), the request fails with `ValidationError` whose message contains the
requested id. -/
theorem serverid_checks_filtered (db : List Server) (r : Request) (v : String)
    (n : Int) (hauth : r.isAuthenticated = true) (hv : r.by_serverid = some v)
    (hp : pyInt v = some n)
    (hmiss : ∀ a ∈ collectionAfterAnnotate db r, a.server.id ≠ n) :
    serverList db r =
      .error (.validationError ("Server with id " ++ v ++ " not found.")) ∧
    ∃ pre post, ("Server with id " ++ v ++ " not found.") = pre ++ v ++ post := by
  have hne : v.isEmpty = false := isEmpty_false_of_pyInt hp
  have hfilter : (collectionAfterAnnotate db r).filter
      (fun a => a.server.id == n) = [] := by
    rw [List.filter_eq_nil_iff]
    intro a ha
    simpa using hmiss a ha
  have hss : stepServerid r (collectionAfterAnnotate db r) =
      .error (.validationError ("Server with id " ++ v ++ " not found.")) := by
    simp [stepServerid, hv, hne, hauth, hp, hfilter]
  refine ⟨?_, "Server with id ", " not found.", rfl⟩
  simp [serverList, queryBeforeQty, queryBeforeServerid_of_auth hauth, hss]

/-- C1, witnessed: server 1 exists in the base collection but is excluded
by the `category` filter, so `by_serverid=1` fails with "not found". -/
theorem serverid_checks_filtered_witness :
    serverList [⟨1, "a", "x", []⟩]
        ⟨some "y", none, none, some "1", none, true, 0⟩ =
      .error (.validationError ("Server with id " ++ "1" ++ " not found.")) ∧
    ∃ pre post, ("Server with id " ++ "1" ++ " not found.") =
      pre ++ "1" ++ post :=
  serverid_checks_filtered [⟨1, "a", "x", []⟩]
    ⟨some "y", none, none, some "1", none, true, 0⟩ "1" 1 rfl rfl rfl
    (by decide)

/-- C2: an unauthenticated requester using `by_user=true` or a truthy
`by_serverid` always gets `AuthenticationFailed`, whatever the other
parameters hold. -/
theorem unauthenticated_gated (db : List Server) (r : Request)
    (hauth : r.isAuthenticated = false)
    (h : r.by_user = some "true" ∨ pyTruthy r.by_serverid = true) :
    serverList db r = .error .authenticationFailed := by
  by_cases hf : pyFlag r.by_user = true
  · have hbu : stepByUser r (stepCategory r.category (initialQS db)) =
        .error .authenticationFailed := by
      simp [stepByUser, hf, hauth]
    simp [serverList, queryBeforeQty, queryBeforeServerid, hbu]
  · have hby : r.by_user ≠ some "true" := by
      intro he
      exact hf (by simp [pyFlag, he])
    have htr : pyTruthy r.by_serverid = true := h.resolve_left hby
    cases hv : r.by_serverid with
    | none => rw [hv] at htr; exact absurd htr (by simp [pyTruthy])
    | some v =>
      rw [hv] at htr
      have hne : v.isEmpty = false := by simpa [pyTruthy] using htr
      have hsb := stepByUser_of_flag_false (Bool.eq_false_iff.mpr hf)
      have hss : ∀ qs : List AServer,
          stepServerid r qs = .error .authenticationFailed := by
        intro qs
        simp [stepServerid, hv, hne, hauth]
      simp [serverList, queryBeforeQty, queryBeforeServerid, hsb, hss]

/-- C2, witnessed at an unauthenticated request with `by_serverid=abc`. -/
theorem unauthenticated_gated_witness :
    serverList [] ⟨none, none, none, some "abc", none, false, 0⟩ =
      .error .authenticationFailed :=
  unauthenticated_gated [] ⟨none, none, none, some "abc", none, false, 0⟩
    rfl (Or.inr rfl)

/-- C3 counterexample: `by_serverid=x` cannot be parsed as an integer, yet
an unauthenticated request fails with `AuthenticationFailed`, not with
`ValidationError "Server value error"`, because the authentication gate of
the `by_serverid` step fires first. -/
theorem serverid_value_error_counterexample :
    serverList [] ⟨none, none, none, some "x", none, false, 0⟩ =
      .error .authenticationFailed ∧
    pyInt "x" = none ∧
    Err.authenticationFailed ≠ Err.validationError "Server value error" :=
  ⟨rfl, rfl, by decide⟩

/-- C3 (amended): for an authenticated requester, a nonempty `by_serverid`
value that cannot be parsed as an integer fails with `ValidationError`
carrying exactly "Server value error" (not the "not found" message). -/
theorem serverid_value_error (db : List Server) (r : Request) (v : String)
    (hauth : r.isAuthenticated = true) (hv : r.by_serverid = some v)
    (hne : v ≠ "") (hp : pyInt v = none) :
    serverList db r = .error (.validationError "Server value error") := by
  have hne' : v.isEmpty = false := isEmpty_false_of_ne hne
  have hss : stepServerid r (collectionAfterAnnotate db r) =
      .error (.validationError "Server value error") := by
    simp [stepServerid, hv, hne', hauth, hp]
  simp [serverList, queryBeforeQty, queryBeforeServerid_of_auth hauth, hss]

/-- C3 amended, witnessed at an authenticated request with
`by_serverid=abc`. -/
theorem serverid_value_error_witness :
    serverList [] ⟨none, none, none, some "abc", none, true, 0⟩ =
      .error (.validationError "Server value error") :=
  serverid_value_error [] ⟨none, none, none, some "abc", none, true, 0⟩
    "abc" rfl rfl (by decide) rfl

/-- C4: a flag parameter is truthy exactly when its value is the literal
string `"true"`; any other value — `"True"`, `"1"`, … — is treated as
false, so it triggers neither the authentication check nor the
`num_members` annotation: the request of an unauthenticated user succeeds
and every serialized record lacks the `num_members` key. -/
theorem literal_true_flags (db : List Server) (cat : Option String)
    (uid : Int) (bu wn : Option String)
    (h1 : bu ≠ some "true") (h2 : wn ≠ some "true") :
    pyFlag (some "true") = true ∧ pyFlag bu = false ∧ pyFlag wn = false ∧
    serverList db ⟨cat, none, bu, none, wn, false, uid⟩ =
      .ok ((stepCategory cat (initialQS db)).map (serializeServer false)) ∧
    ((stepCategory cat (initialQS db)).map (serializeServer false)).all
      (fun x => x.num_members == none) = true := by
  have hbu : pyFlag bu = false := by
    unfold pyFlag
    exact beq_eq_false_iff_ne.mpr h1
  have hwn : pyFlag wn = false := by
    unfold pyFlag
    exact beq_eq_false_iff_ne.mpr h2
  have hsb : stepByUser ⟨cat, none, bu, none, wn, false, uid⟩
      (stepCategory cat (initialQS db)) =
      .ok (stepCategory cat (initialQS db)) :=
    stepByUser_of_flag_false hbu _
  refine ⟨rfl, hbu, hwn, ?_, ?_⟩
  · simp [serverList, queryBeforeQty, queryBeforeServerid, hsb, hwn,
      stepNumMembers, stepServerid, stepQty]
  · rw [List.all_eq_true]
    intro x hx
    rcases List.mem_map.mp hx with ⟨a, _, rfl⟩
    simp [serializeServer]

/-- C4, witnessed at `by_user=True`, `with_num_members=1` for an
unauthenticated requester. -/
theorem literal_true_flags_witness :
    pyFlag (some "true") = true ∧ pyFlag (some "True") = false ∧
    pyFlag (some "1") = false ∧
    serverList [⟨1, "a", "c", [10]⟩]
        ⟨none, none, some "True", none, some "1", false, 0⟩ =
      .ok ((stepCategory none (initialQS [⟨1, "a", "c", [10]⟩])).map
        (serializeServer false)) ∧
    ((stepCategory none (initialQS [⟨1, "a", "c", [10]⟩])).map
      (serializeServer false)).all (fun x => x.num_members == none) = true :=
  literal_true_flags [⟨1, "a", "c", [10]⟩] none 0 (some "True") (some "1")
    (by decide) (by decide)

/-- C5 counterexample: `by_user=true&with_num_members=true` by an
authenticated member of a server with exactly 3 members yields
`num_members = 1`, not 3 — `annotate(num_members=Count("member"))` reuses
the join already constrained by `filter(member=user_id)`, so it counts only
the requester's rows, refuting "its value equals the count of Users in
that Server's members relation". -/
theorem num_members_join_counterexample :
    serverList [⟨1, "a", "c", [10, 20, 30]⟩]
        ⟨none, none, some "true", none, some "true", true, 10⟩ =
      .ok [⟨1, "a", "c", some 1⟩] ∧
    (⟨1, "a", "c", [10, 20, 30]⟩ : Server).members.length = 3 ∧
    (some 1 : Option Nat) ≠ some 3 :=
  ⟨rfl, rfl, by decide⟩

/-- C5 (amended): in every successful response, a record carries the
`num_members` field iff `with_num_members` was the literal `"true"` (the
flag travels in the serialization context), and its value is the count of
the corresponding `Server` row's `member` join: the full member count when
`by_user` is not `"true"`, but only the requester's rows in the relation
when the `by_user` filter ran first; without the flag the key is absent. -/
theorem num_members_serialization (db : List Server) (r : Request)
    (l : List SerializedServer) (x : SerializedServer)
    (h : serverList db r = .ok l) (hx : x ∈ l) :
    (x.num_members.isSome = true ↔ r.with_num_members = some "true") ∧
    ∃ s ∈ db, x.id = s.id ∧ x.name = s.name ∧ x.category = s.categoryName ∧
      x.num_members = (if r.with_num_members = some "true" then
        some (annotatedCount r s) else none) ∧
      (r.by_user ≠ some "true" → annotatedCount r s = s.members.length) ∧
      (r.by_user = some "true" → annotatedCount r s =
        (s.members.filter (fun m => m == r.userId)).length) := by
  unfold serverList at h
  cases h4 : queryBeforeQty db r with
  | error e => rw [h4] at h; exact Except.noConfusion h
  | ok qs4 =>
    rw [h4] at h
    dsimp only at h
    cases h5 : stepQty r.qty qs4 with
    | error e => rw [h5] at h; exact Except.noConfusion h
    | ok qs5 =>
      rw [h5] at h
      dsimp only at h
      injection h with h
      subst h
      rcases List.mem_map.mp hx with ⟨a, ha5, rfl⟩
      have ha4 : a ∈ qs4 := stepQty_ok_subset h5 ha5
      unfold queryBeforeQty at h4
      cases h3 : queryBeforeServerid db r with
      | error e => rw [h3] at h4; exact Except.noConfusion h4
      | ok qs3 =>
        rw [h3] at h4
        dsimp only at h4
        have ha3 : a ∈ qs3 := stepServerid_ok_subset h4 ha4
        unfold queryBeforeServerid at h3
        cases h2 : stepByUser r (stepCategory r.category (initialQS db)) with
        | error e => rw [h2] at h3; exact Except.noConfusion h3
        | ok qs2 =>
          rw [h2] at h3
          dsimp only at h3
          injection h3 with h3
          subst h3
          rcases mem_stepNumMembers ha3 with ⟨b, hb2, habs, habm⟩
          have hb0 : b ∈ initialQS db :=
            mem_stepCategory (stepByUser_ok_subset h2 hb2)
          rcases List.mem_map.mp hb0 with ⟨s, hs, hbs⟩
          have hflag : pyFlag r.with_num_members = true ↔
              r.with_num_members = some "true" := by
            unfold pyFlag
            exact beq_iff_eq
          have hserver : a.server = s := by rw [habs, ← hbs]
          have hmem : a.num_members = if pyFlag r.with_num_members then
              some (annotatedCount r s) else none := by
            rw [habm, ← hbs]
          constructor
          · by_cases hw : pyFlag r.with_num_members = true
            · simp [serializeServer, pyFlag, hw, hflag.mp hw]
            · have hw' : ¬r.with_num_members = some "true" :=
                fun hc => hw (hflag.mpr hc)
              simp [serializeServer, Bool.eq_false_iff.mpr hw, hw']
          · refine ⟨s, hs, ?_, ?_, ?_, ?_, ?_, ?_⟩
            · simp [serializeServer, hserver]
            · simp [serializeServer, hserver]
            · simp [serializeServer, hserver]
            · by_cases hw : pyFlag r.with_num_members = true
              · simp [serializeServer, pyFlag, hw, hflag.mp hw, hmem, hserver]
              · have hw' : ¬r.with_num_members = some "true" :=
                  fun hc => hw (hflag.mpr hc)
                simp [serializeServer, Bool.eq_false_iff.mpr hw, hw']
            · intro hbu
              have hb : pyFlag r.by_user = false := by
                unfold pyFlag
                exact beq_eq_false_iff_ne.mpr hbu
              simp [annotatedCount, hb]
            · intro hbu
              simp [annotatedCount, pyFlag, hbu]

/-- C5 amended, witnessed: without `by_user`, a server with exactly 3
members serializes with `num_members = 3` under `with_num_members=true`. -/
theorem num_members_serialization_witness :
    ((⟨1, "a", "c", some 3⟩ : SerializedServer).num_members.isSome = true ↔
      (some "true" : Option String) = some "true") ∧
    ∃ s ∈ [(⟨1, "a", "c", [10, 20, 30]⟩ : Server)],
      (⟨1, "a", "c", some 3⟩ : SerializedServer).id = s.id ∧
      (⟨1, "a", "c", some 3⟩ : SerializedServer).name = s.name ∧
      (⟨1, "a", "c", some 3⟩ : SerializedServer).category = s.categoryName ∧
      (⟨1, "a", "c", some 3⟩ : SerializedServer).num_members =
        (if (some "true" : Option String) = some "true" then
          some (annotatedCount ⟨none, none, none, none, some "true", false, 0⟩ s)
        else none) ∧
      ((none : Option String) ≠ some "true" →
        annotatedCount ⟨none, none, none, none, some "true", false, 0⟩ s =
          s.members.length) ∧
      ((none : Option String) = some "true" →
        annotatedCount ⟨none, none, none, none, some "true", false, 0⟩ s =
          (s.members.filter (fun m => m == (0 : Int))).length) :=
  num_members_serialization [⟨1, "a", "c", [10, 20, 30]⟩]
    ⟨none, none, none, none, some "true", false, 0⟩
    [⟨1, "a", "c", some 3⟩] ⟨1, "a", "c", some 3⟩ rfl (by decide)

/-- C6: a `qty` value parsing to a non-negative integer `n` truncates, as
the last step, the collection left by all earlier filters and the
annotation to its first `n` records (at most `n`: the length of the result
is `min n` the collection's size). -/
theorem qty_truncates (db : List Server) (r : Request) (q : String) (n : Int)
    (qs4 : List AServer) (hq : r.qty = some q) (hp : pyInt q = some n)
    (hn : 0 ≤ n) (h4 : queryBeforeQty db r = .ok qs4) :
    serverList db r = .ok ((qs4.take n.toNat).map
      (serializeServer (pyFlag r.with_num_members))) ∧
    (qs4.take n.toNat).length = min n.toNat qs4.length := by
  have hne : q.isEmpty = false := isEmpty_false_of_pyInt hp
  have h5 : stepQty r.qty qs4 = .ok (qs4.take n.toNat) := by
    simp [stepQty, hq, hne, hp, Int.not_lt.mpr hn]
  constructor
  · simp [serverList, h4, h5]
  · exact List.length_take _ _

/-- C6, witnessed: `qty=2` over a 5-record collection returns exactly its
first 2 records. -/
theorem qty_truncates_witness :
    serverList
        [⟨1, "a", "c", []⟩, ⟨2, "b", "c", []⟩, ⟨3, "d", "c", []⟩,
         ⟨4, "e", "c", []⟩, ⟨5, "f", "c", []⟩]
        ⟨none, some "2", none, none, none, false, 0⟩ =
      .ok ((([⟨⟨1, "a", "c", []⟩, none⟩, ⟨⟨2, "b", "c", []⟩, none⟩,
        ⟨⟨3, "d", "c", []⟩, none⟩, ⟨⟨4, "e", "c", []⟩, none⟩,
        ⟨⟨5, "f", "c", []⟩, none⟩] : List AServer).take (Int.toNat 2)).map
        (serializeServer (pyFlag none))) ∧
    (([⟨⟨1, "a", "c", []⟩, none⟩, ⟨⟨2, "b", "c", []⟩, none⟩,
      ⟨⟨3, "d", "c", []⟩, none⟩, ⟨⟨4, "e", "c", []⟩, none⟩,
      ⟨⟨5, "f", "c", []⟩, none⟩] : List AServer).take (Int.toNat 2)).length =
      min (Int.toNat 2) ([⟨⟨1, "a", "c", []⟩, none⟩, ⟨⟨2, "b", "c", []⟩, none⟩,
      ⟨⟨3, "d", "c", []⟩, none⟩, ⟨⟨4, "e", "c", []⟩, none⟩,
      ⟨⟨5, "f", "c", []⟩, none⟩] : List AServer).length :=
  qty_truncates
    [⟨1, "a", "c", []⟩, ⟨2, "b", "c", []⟩, ⟨3, "d", "c", []⟩,
     ⟨4, "e", "c", []⟩, ⟨5, "f", "c", []⟩]
    ⟨none, some "2", none, none, none, false, 0⟩ "2" 2 _ rfl rfl
    (by decide) rfl

/-- C7: a nonempty `category` matching no record yields a successful empty
response, not an error; and the category step restricts the collection to
the servers whose category name equals the parameter exactly. -/
theorem category_no_match (db : List Server) (c : String) (auth : Bool)
    (uid : Int) (hc : c ≠ "") (hmiss : ∀ s ∈ db, s.categoryName ≠ c) :
    serverList db ⟨some c, none, none, none, none, auth, uid⟩ = .ok [] ∧
    ∀ qs : List AServer, stepCategory (some c) qs =
      qs.filter (fun a => a.server.categoryName == c) := by
  have hc' : c.isEmpty = false := isEmpty_false_of_ne hc
  have hstep : ∀ qs : List AServer, stepCategory (some c) qs =
      qs.filter (fun a => a.server.categoryName == c) := by
    intro qs
    simp [stepCategory, hc']
  refine ⟨?_, hstep⟩
  have hnil : stepCategory (some c) (initialQS db) = [] := by
    rw [hstep, List.filter_eq_nil_iff]
    intro a ha
    rcases List.mem_map.mp ha with ⟨s, hs, rfl⟩
    simpa using hmiss s hs
  simp [serverList, queryBeforeQty, queryBeforeServerid, stepByUser, pyFlag,
    hnil, stepNumMembers, stepServerid, stepQty]

/-- C7, witnessed at category `y` over a base collection whose only
category is `x`. -/
theorem category_no_match_witness :
    serverList [⟨1, "a", "x", []⟩]
        ⟨some "y", none, none, none, none, false, 0⟩ = .ok [] ∧
    ∀ qs : List AServer, stepCategory (some "y") qs =
      qs.filter (fun a => a.server.categoryName == "y") :=
  category_no_match [⟨1, "a", "x", []⟩] "y" false 0 (by decide) (by decide)

/-! ### Claim theorems: icon validators -/

/-- C8: the dimension check rejects a supplied image iff its width exceeds
70 or its height exceeds 70 (so 71×50 is rejected while 70×70 and 69×69 are
accepted), and a missing image value is accepted without error. -/
theorem icon_size_bound :
    (∀ img : IconImage,
      (∃ m, validate_icon_image_size (some img) = .error m) ↔
        (img.width > 70 ∨ img.height > 70)) ∧
    validate_icon_image_size none = .ok () ∧
    (∃ m, validate_icon_image_size (some ⟨71, 50⟩) = .error m) ∧
    validate_icon_image_size (some ⟨70, 70⟩) = .ok () ∧
    validate_icon_image_size (some ⟨69, 69⟩) = .ok () := by
  refine ⟨?_, rfl, ⟨_, rfl⟩, rfl, rfl⟩
  intro img
  simp only [validate_icon_image_size]
  by_cases h : img.width > 70 ∨ img.height > 70
  · simp [h]
  · simp [h]

/-- C9 counterexample: for the file name `".png"` the portion after the last
dot is `".png"`, which is in the accepted extension set, so under the
claim's extraction rule the file would be accepted — yet the code (which
uses `os.path.splitext`, giving dot-led basenames no extension) rejects
it. -/
theorem ext_rule_counterexample :
    specClaimedExt ".png" = ".png" ∧
    valid_exts.contains (strLower (specClaimedExt ".png")) = true ∧
    validate_image_file_exstention ".png" =
      .error "Unsupported file exstention" := by
  exact ⟨by decide, by decide, rfl⟩

/-- C9 (amended): the extension check extracts the extension as
`os.path.splitext` does — for ordinary names `stem.suf` (dot-free suffix,
non-dot character in the stem, no separators) this is the portion from the
last `'.'` as the spec words it, but a dot-led basename such as `".png"`
yields no extension and is rejected; the name is accepted iff the
lower-cased extracted extension lies in `{.jpg, .jpeg, .png, .gif, .webp}`,
and `icon.bmp` is rejected regardless of its pixel dimensions. -/
theorem ext_rule_amended :
    (∀ name : String, validate_image_file_exstention name = .ok () ↔
      valid_exts.contains (strLower (splitextExt name)) = true) ∧
    (∀ stem suf : String, '/' ∉ stem.toList → '/' ∉ suf.toList →
      '.' ∉ suf.toList → (∃ c ∈ stem.toList, c ≠ '.') →
      splitextExt (stem ++ "." ++ suf) = "." ++ suf ∧
      specClaimedExt (stem ++ "." ++ suf) = "." ++ suf) ∧
    validate_image_file_exstention "icon.bmp" =
      .error "Unsupported file exstention" ∧
    validate_image_file_exstention ".png" =
      .error "Unsupported file exstention" := by
  refine ⟨?_, ?_, rfl, rfl⟩
  · intro name
    simp only [validate_image_file_exstention]
    by_cases h : valid_exts.contains (strLower (splitextExt name)) = true
    · simp [h]
    · simp [h]
  · intro stem suf h1 h2 h3 h4
    exact splitextExt_concat h1 h2 h3 h4

/-- C9 amended, witnessed at `stem = "icon"`, `suf = "png"`. -/
theorem ext_rule_amended_witness :
    splitextExt ("icon" ++ "." ++ "png") = "." ++ "png" ∧
    specClaimedExt ("icon" ++ "." ++ "png") = "." ++ "png" :=
  ext_rule_amended.2.1 "icon" "png" (by decide) (by decide) (by decide)
    ⟨'i', by decide, by decide⟩

/-- C10: a file name containing no `'.'` at all has the empty string as its
extracted extension, which is not in the accepted set, so the extension
check always rejects it. -/
theorem dotless_always_rejected (name : String) (h : '.' ∉ name.toList) :
    splitextExt name = "" ∧
    validate_image_file_exstention name =
      .error "Unsupported file exstention" := by
  have hd : lastIdx '.' name.toList = none := lastIdx_eq_none h
  have h1 : splitextExt name = "" := by simp only [splitextExt, hd]
  exact ⟨h1, by simp only [validate_image_file_exstention, h1]; rfl⟩

/-- C10, witnessed at the dot-less file name `"iconpng"`. -/
theorem dotless_always_rejected_witness :
    splitextExt "iconpng" = "" ∧
    validate_image_file_exstention "iconpng" =
      .error "Unsupported file exstention" :=
  dotless_always_rejected "iconpng" (by decide)

end ChatApp
